import Mathlib

/-!
Verification of the bridge packet-multiplexer of `ndlab` (`src/ndlab/connect.py`):
the TCP length-prefix framing codec (`TCPBuffer`, `get_payload_from_packet`),
the PCAP encoder (`PCAP.HEADER`, `PCAP.get_pcap_from_packet`), the bridge wiring
loop (`Bridge.connect`), the sniffer session bookkeeping
(`TCPSnifferServer.start_session`) and the TAP/physical write paths.

Bytes are modelled as natural numbers below 256, byte strings as `List Nat`.
The host is modelled as little-endian (the deployment target of the tool), so
`struct.pack("I", socket.htonl-)` amounts to emitting the big-endian bytes.
-/

namespace Ndlab

/-- `MTU = 1518` in `connect.py`. -/
def MTU : Nat := 1518

/-- `LENGTH = 4` in `connect.py`: size of the length prefix. -/
def LENGTH : Nat := 4

/-- `MAX_CAPTURE_CONNECTIONS = 1` in `connect.py`. -/
def MAX_CAPTURE_CONNECTIONS : Nat := 1

/-- Bytes of `struct.pack("I", x)` on a little-endian host, for `x < 2^32`. -/
def packNativeU32 (x : Nat) : List Nat :=
  [x % 256, x / 256 % 256, x / 65536 % 256, x / 16777216 % 256]

/-- `struct.unpack("I", bs)[0]` on a little-endian host, for a 4-byte string. -/
def unpackNativeU32 : List Nat → Nat
  | [b0, b1, b2, b3] => b0 + 256 * b1 + 65536 * b2 + 16777216 * b3
  | _ => 0

/-- `socket.htonl` on a little-endian host: the 32-bit byte swap. -/
def htonl (x : Nat) : Nat :=
  x % 256 * 16777216 + x / 256 % 256 * 65536 + x / 65536 % 256 * 256 + x / 16777216 % 256

/-- `socket.ntohl` on a little-endian host: the 32-bit byte swap. -/
def ntohl (x : Nat) : Nat :=
  x % 256 * 16777216 + x / 256 % 256 * 65536 + x / 65536 % 256 * 256 + x / 16777216 % 256

/-- `get_payload_from_packet` (connect.py 193-197):
`struct.pack("I", socket.htonl(len(packet))) + packet`. -/
def get_payload_from_packet (packet : List Nat) : List Nat :=
  packNativeU32 (htonl packet.length) ++ packet

/-- `socket.ntohl(struct.unpack("I", reported_size_packed)[0])` (connect.py 166-167). -/
def reported_size (bs : List Nat) : Nat :=
  ntohl (unpackNativeU32 bs)

/-- The `while self._buffer:` loop of `TCPBuffer.get_packets_from_tcp_data`
(connect.py 158-190), as a function from the buffer contents to the returned
packet list and the final buffer contents.

Branches, in source order:
* fewer than `LENGTH` buffered bytes: the generator inside `bytes(...)` pops
  every remaining byte off the deque before `popleft` raises `IndexError`, so
  the loop breaks with an **empty** buffer and the leftover bytes are lost;
* prefix value above `MTU`: `_empty_buffer()` then break;
* fewer than `size` bytes after the prefix: the 4 prefix bytes are pushed back
  with `appendleft` and the loop breaks with the buffer unchanged;
* otherwise `size` bytes are consumed as one packet and the loop continues. -/
def get_packets_iter : Nat → List Nat → List (List Nat) × List Nat
  | 0, _ => ([], [])
  | bound + 1, buf =>
    if buf.length < LENGTH then ([], [])
    else if MTU < reported_size (buf.take LENGTH) then ([], [])
    else if (buf.drop LENGTH).length < reported_size (buf.take LENGTH) then
      ([], buf)
    else
      ((buf.drop LENGTH).take (reported_size (buf.take LENGTH)) ::
          (get_packets_iter bound
            ((buf.drop LENGTH).drop (reported_size (buf.take LENGTH)))).1,
        (get_packets_iter bound
          ((buf.drop LENGTH).drop (reported_size (buf.take LENGTH)))).2)

/-- The loop itself: every iteration consumes at least the `LENGTH` prefix
bytes, so `buf.length` iterations always suffice for `get_packets_iter` (the
`0` case is reached only with an empty buffer, where the `while` guard is
false anyway). -/
def get_packets_loop (buf : List Nat) : List (List Nat) × List Nat :=
  get_packets_iter buf.length buf

/-- `TCPBuffer.get_packets_from_tcp_data` (connect.py 155-190): extend the
buffer with `data`, run the loop; returns the packet list and the new buffer
state. -/
def get_packets_from_tcp_data (buf data : List Nat) : List (List Nat) × List Nat :=
  get_packets_loop (buf ++ data)

/-- Feeding successive read chunks to one `TCPBuffer`, concatenating the
packet lists the calls return; final component is the buffer state. -/
def feed_chunks (chunks : List (List Nat)) : List (List Nat) × List Nat :=
  chunks.foldl
    (fun acc c =>
      let r := get_packets_from_tcp_data acc.2 c
      (acc.1 ++ r.1, r.2))
    ([], [])

/-- Whether the loop of `get_packets_from_tcp_data`, run on buffer contents
`buf`, ever decodes a length prefix whose value exceeds `MTU` (the
`_empty_buffer` branch at connect.py 168-171). Mirrors `get_packets_loop`. -/
def oversized_iter : Nat → List Nat → Bool
  | 0, _ => false
  | bound + 1, buf =>
    if buf.length < LENGTH then false
    else if MTU < reported_size (buf.take LENGTH) then true
    else if (buf.drop LENGTH).length < reported_size (buf.take LENGTH) then false
    else oversized_iter bound ((buf.drop LENGTH).drop (reported_size (buf.take LENGTH)))

/-- `oversized_hit buf`: the recursion bound instantiated as in
`get_packets_loop`. -/
def oversized_hit (buf : List Nat) : Bool :=
  oversized_iter buf.length buf

/-- Big-endian bytes of a 4-byte unsigned field, as the spec words it
("4-byte big-endian (network byte order) encoding"). Used to compare the
source's double-conversion encoding against the spec. -/
def beBytes4 (x : Nat) : List Nat :=
  [x / 16777216 % 256, x / 65536 % 256, x / 256 % 256, x % 256]

/-- Big-endian value of a 4-byte string, as the spec words it. -/
def beValue4 : List Nat → Nat
  | [b0, b1, b2, b3] => 16777216 * b0 + 65536 * b1 + 256 * b2 + b3
  | _ => 0

namespace PCAP

/-- Constants of class `PCAP` (connect.py 64-70). -/
def MAGIC_NUMBER : Nat := 0xA1B2C3D4

def VERSION_MAJOR : Nat := 2

def VERSION_MINOR : Nat := 4

def GMT_OFFSET : Int := 0

def TIMESTAMP_ACCURACY : Nat := 0

def MAX_PACKET_LENGTH : Nat := 65535

def DATA_LINK_TYPE : Nat := 1

/-- Bytes of a `!H` (big-endian u16) field of `struct.pack`. -/
def packBE2 (x : Nat) : List Nat := [x / 256 % 256, x % 256]

/-- Bytes of a `!I` (big-endian u32) field of `struct.pack`. -/
def packBE4 (x : Nat) : List Nat :=
  [x / 16777216 % 256, x / 65536 % 256, x / 256 % 256, x % 256]

/-- Bytes of a `!i` (big-endian s32, two's complement) field of `struct.pack`. -/
def packBE4i (x : Int) : List Nat := packBE4 (x % 4294967296).toNat

/-- `PCAP.HEADER = struct.pack("!IHHiIII", ...)` (connect.py 72-81). -/
def HEADER : List Nat :=
  packBE4 MAGIC_NUMBER ++ packBE2 VERSION_MAJOR ++ packBE2 VERSION_MINOR ++
    packBE4i GMT_OFFSET ++ packBE4 TIMESTAMP_ACCURACY ++
    packBE4 MAX_PACKET_LENGTH ++ packBE4 DATA_LINK_TYPE

/-- `PCAP.get_pcap_from_packet` (connect.py 85-100), with the wall-clock split
`seconds`/`microseconds` made explicit parameters:
`struct.pack("!IIII", seconds, microseconds, len(packet), len(packet)) + packet`. -/
def get_pcap_from_packet (seconds microseconds : Nat) (packet : List Nat) : List Nat :=
  packBE4 seconds ++ packBE4 microseconds ++ packBE4 packet.length ++
    packBE4 packet.length ++ packet

end PCAP

/-- `itertools.permutations(combined, 2)` over a bridge's `_combined` endpoint
list, with the endpoints identified by their position `0, ..., n-1` in the
list: all ordered pairs of distinct positions, in lexicographic order. -/
def perms2 (n : Nat) : List (Nat × Nat) :=
  (List.range n).flatMap
    (fun i => ((List.range n).filter (fun j => j ≠ i)).map (fun j => (i, j)))

/-- The wiring loop of `Bridge.connect` (connect.py 234-236):
`for endpoint, other_endpoint in itertools.permutations(self._combined, 2):
other_endpoint.send_queues.append(endpoint.receive_queue)`.

Endpoint `x`'s `receive_queue` is identified by its owner's position `x` (the
queues are distinct objects, one per endpoint).  `wire_send_queues n y` is the
final `send_queues` list of endpoint `y`; all `send_queues` start empty. -/
def wire_send_queues (n y : Nat) : List Nat :=
  (perms2 n).foldl (fun acc p => if p.2 = y then acc ++ [p.1] else acc) []

/-- `TCPSnifferServer.start_session` admission and setup (connect.py 553-565),
on the `capture_queues` state (each queue is the list of byte strings put on
it, oldest first).  At or above `MAX_CAPTURE_CONNECTIONS` active sessions the
client is closed and the state is untouched (returns `false`); otherwise a new
queue holding `PCAP.HEADER` is appended (returns `true`). -/
def start_session (capture_queues : List (List (List Nat))) :
    Bool × List (List (List Nat)) :=
  if MAX_CAPTURE_CONNECTIONS ≤ capture_queues.length then (false, capture_queues)
  else (true, capture_queues ++ [[PCAP.HEADER]])

/-- One iteration of `TCPSnifferServer.forward_payloads_to_sessions`
(connect.py 513-533): the PCAP record of the dequeued packet is put on every
queue in `capture_queues`. -/
def forward_packet (capture_queues : List (List (List Nat)))
    (seconds microseconds : Nat) (packet : List Nat) : List (List (List Nat)) :=
  capture_queues.map
    (fun q => q ++ [PCAP.get_pcap_from_packet seconds microseconds packet])

/-- Repeated `forward_payloads_to_sessions` iterations over a list of
`(seconds, microseconds, packet)` triples. -/
def forward_all (capture_queues : List (List (List Nat)))
    (pkts : List (Nat × Nat × List Nat)) : List (List (List Nat)) :=
  pkts.foldl (fun qs p => forward_packet qs p.1 p.2.1 p.2.2) capture_queues

/-- Session teardown of `start_session` (connect.py 571-572):
`self.capture_queues.remove(capture_queue)` removes the first occurrence. -/
def end_session (capture_queues : List (List (List Nat)))
    (capture_queue : List (List Nat)) : List (List (List Nat)) :=
  capture_queues.erase capture_queue

/-- Body of the `while True:` loop of `TapInterfaceClient.write_tap`
(connect.py 390-405) for one dequeued packet: `if not packet: continue`
(no write), otherwise `os.write(self.tap, packet)`. -/
def write_tap_action (packet : List Nat) : Option (List Nat) :=
  if packet.isEmpty then none else some packet

/-- Body of the `while True:` loop of
`PhysicalNetworkInterfaceClient.write_physical` (connect.py 463-478) for one
dequeued packet: `if not packet: continue` (no write), otherwise
`self.socket.send(packet)`. -/
def write_physical_action (packet : List Nat) : Option (List Nat) :=
  if packet.isEmpty then none else some packet

/-- The frames `write_tap` actually writes to the TAP handle, over a sequence
of dequeued frames. -/
def tap_writes (packets : List (List Nat)) : List (List Nat) :=
  packets.filterMap write_tap_action

/-- The frames `write_physical` actually sends on the raw socket, over a
sequence of dequeued frames. -/
def physical_writes (packets : List (List Nat)) : List (List Nat) :=
  packets.filterMap write_physical_action

/-! ### Helper lemmas -/

theorem packNativeU32_lin (p q r s : Nat) (hq : q < 256) (hr : r < 256)
    (hs : s < 256) :
    packNativeU32 (p * 16777216 + q * 65536 + r * 256 + s) =
      [s, r, q, p % 256] := by
  simp only [packNativeU32, List.cons.injEq, and_true]
  refine ⟨?_, ?_, ?_, ?_⟩ <;> omega

theorem ntohl_lin (p q r s : Nat) (hp : p < 256) (hq : q < 256) (hr : r < 256)
    (hs : s < 256) :
    ntohl (s + 256 * r + 65536 * q + 16777216 * p) =
      s * 16777216 + r * 65536 + q * 256 + p := by
  simp only [ntohl]
  have h1 : (s + 256 * r + 65536 * q + 16777216 * p) % 256 = s := by omega
  have h2 : (s + 256 * r + 65536 * q + 16777216 * p) / 256 % 256 = r := by omega
  have h3 : (s + 256 * r + 65536 * q + 16777216 * p) / 65536 % 256 = q := by omega
  have h4 : (s + 256 * r + 65536 * q + 16777216 * p) / 16777216 % 256 = p := by
    omega
  rw [h1, h2, h3, h4]

/-- On a little-endian host the double conversion
`struct.pack("I", socket.htonl(L))` emits exactly the big-endian bytes of
`L`'s low 32 bits. -/
theorem pack_htonl (L : Nat) : packNativeU32 (htonl L) = beBytes4 L := by
  have h := packNativeU32_lin (L % 256) (L / 256 % 256) (L / 65536 % 256)
    (L / 16777216 % 256) (by omega) (by omega) (by omega)
  simp only [htonl, beBytes4]
  rw [h]
  simp only [List.cons.injEq, and_true, true_and]
  omega

/-- Decoding inverts encoding on values below `2^32`. -/
theorem reported_size_beBytes4 (L : Nat) (h : L < 4294967296) :
    reported_size (beBytes4 L) = L := by
  simp only [reported_size, beBytes4, unpackNativeU32]
  rw [ntohl_lin (L % 256) (L / 256 % 256) (L / 65536 % 256) (L / 16777216 % 256)
    (by omega) (by omega) (by omega) (by omega)]
  omega

theorem get_packets_iter_succ (bound : Nat) (buf : List Nat) :
    get_packets_iter (bound + 1) buf =
      if buf.length < LENGTH then ([], [])
      else if MTU < reported_size (buf.take LENGTH) then ([], [])
      else if (buf.drop LENGTH).length < reported_size (buf.take LENGTH) then
        ([], buf)
      else
        ((buf.drop LENGTH).take (reported_size (buf.take LENGTH)) ::
            (get_packets_iter bound
              ((buf.drop LENGTH).drop (reported_size (buf.take LENGTH)))).1,
          (get_packets_iter bound
            ((buf.drop LENGTH).drop (reported_size (buf.take LENGTH)))).2) := rfl

theorem oversized_iter_succ (bound : Nat) (buf : List Nat) :
    oversized_iter (bound + 1) buf =
      if buf.length < LENGTH then false
      else if MTU < reported_size (buf.take LENGTH) then true
      else if (buf.drop LENGTH).length < reported_size (buf.take LENGTH) then
        false
      else
        oversized_iter bound
          ((buf.drop LENGTH).drop (reported_size (buf.take LENGTH))) := rfl

theorem get_packets_iter_nil (bound : Nat) : get_packets_iter bound [] = ([], []) := by
  cases bound with
  | zero => rfl
  | succ n => simp [get_packets_iter, LENGTH]

/-- Once the loop hits an oversized prefix, `_empty_buffer` leaves the final
buffer empty (within a sufficient recursion bound). -/
theorem oversized_clears_aux (bound : Nat) :
    ∀ buf : List Nat, buf.length ≤ bound → oversized_iter bound buf = true →
      (get_packets_iter bound buf).2 = [] := by
  induction bound with
  | zero =>
    intro buf hle h
    simp [oversized_iter] at h
  | succ n ih =>
    intro buf hle h
    rw [oversized_iter_succ] at h
    rw [get_packets_iter_succ]
    by_cases h4 : buf.length < LENGTH
    · rw [if_pos h4]
    · rw [if_neg h4] at h ⊢
      by_cases hs : MTU < reported_size (buf.take LENGTH)
      · rw [if_pos hs]
      · rw [if_neg hs] at h ⊢
        by_cases hb : (buf.drop LENGTH).length < reported_size (buf.take LENGTH)
        · rw [if_pos hb] at h
          exact absurd h (by simp)
        · rw [if_neg hb] at h ⊢
          exact ih _ (by
            simp only [List.length_drop, LENGTH]
            simp only [LENGTH, not_lt] at h4 hle
            omega) h

theorem wire_foldl_eq (y : Nat) :
    ∀ (ps : List (Nat × Nat)) (acc : List Nat),
      ps.foldl (fun acc p => if p.2 = y then acc ++ [p.1] else acc) acc
        = acc ++ (ps.filter (fun p => p.2 == y)).map Prod.fst := by
  intro ps
  induction ps with
  | nil => intro acc; simp
  | cons p ps ih =>
    intro acc
    by_cases h : p.2 = y <;>
      simp [List.foldl_cons, List.filter_cons, h, ih, List.append_assoc]

theorem extract_flatMap (y : Nat) (f : Nat → List (Nat × Nat)) :
    ∀ l : List Nat,
      ((l.flatMap f).filter (fun p => p.2 == y)).map Prod.fst
        = l.flatMap (fun a => ((f a).filter (fun p => p.2 == y)).map Prod.fst) := by
  intro l
  induction l with
  | nil => simp
  | cons a l ih => simp [List.flatMap_cons, List.filter_append, ih]

theorem extract_map_pair (i y : Nat) :
    ∀ l : List Nat,
      ((l.map (fun j => (i, j))).filter (fun p => p.2 == y)).map Prod.fst
        = (l.filter (fun j => j == y)).map (fun _ => i) := by
  intro l
  induction l with
  | nil => simp
  | cons j l ih =>
    by_cases h : j = y
    · simp [List.filter_cons, h, ih]
    · simp [List.filter_cons, h, ih]

theorem range_filter_ne_filter_eq (i y : Nat) :
    ∀ n : Nat, y < n →
      (((List.range n).filter (fun j => j ≠ i)).filter (fun j => j == y))
        = if i = y then [] else [y] := by
  intro n
  induction n with
  | zero => intro h; omega
  | succ n ih =>
    intro hy
    rw [List.range_succ, List.filter_append, List.filter_append]
    by_cases hlt : y < n
    · rw [ih hlt]
      have hne : ¬ (n == y) = true := by simp; omega
      by_cases hni : n = i
      · simp [hni]
      · simp only [List.filter_cons, List.filter_nil]
        simp [hni, hne]
    · have hyn : y = n := by omega
      have hhead :
          (((List.range n).filter (fun j => j ≠ i)).filter (fun j => j == y)) = [] := by
        rw [List.filter_eq_nil_iff.mpr]
        intro a ha
        have := List.mem_filter.mp ha
        have han : a ∈ List.range n := this.1
        have : a < n := List.mem_range.mp han
        simp
        omega
      rw [hhead]
      subst hyn
      by_cases hni : y = i
      · simp [hni]
      · simp [hni, Ne.symm hni]

theorem flatMap_if_singleton (y : Nat) :
    ∀ l : List Nat,
      l.flatMap (fun i => if i = y then [] else [i]) = l.filter (fun i => i != y) := by
  intro l
  induction l with
  | nil => simp
  | cons a l ih =>
    by_cases h : a = y
    · simp [List.filter_cons, h, ih]
    · simp [List.filter_cons, h, ih]

theorem range_filter_bne_length (y : Nat) :
    ∀ n : Nat, y < n → ((List.range n).filter (fun i => i != y)).length = n - 1 := by
  intro n
  induction n with
  | zero => intro h; omega
  | succ n ih =>
    intro hy
    rw [List.range_succ, List.filter_append, List.length_append]
    by_cases hlt : y < n
    · rw [ih hlt]
      have : (n != y) = true := by simp; omega
      simp [this]
      omega
    · have hyn : y = n := by omega
      subst hyn
      have hhead : (List.range y).filter (fun i => i != y) = List.range y := by
        rw [List.filter_eq_self.mpr]
        intro a ha
        have : a < y := List.mem_range.mp ha
        simp
        omega
      rw [hhead]
      simp

/-- After the wiring loop, endpoint `y`'s `send_queues` holds exactly the
receive queues of the endpoints other than `y`, in position order. -/
theorem wire_char (n y : Nat) (hy : y < n) :
    wire_send_queues n y = (List.range n).filter (fun i => i != y) := by
  unfold wire_send_queues
  rw [wire_foldl_eq, List.nil_append]
  unfold perms2
  rw [extract_flatMap]
  have hseg : ∀ i : Nat,
      ((((List.range n).filter (fun j => j ≠ i)).map (fun j => (i, j))).filter
        (fun p => p.2 == y)).map Prod.fst = if i = y then [] else [i] := by
    intro i
    rw [extract_map_pair, range_filter_ne_filter_eq i y n hy]
    by_cases h : i = y
    · simp [h]
    · simp [h]
  rw [funext hseg]
  exact flatMap_if_singleton y (List.range n)

/-- A single well-formed encoded frame of admissible length decodes, on an
empty starting buffer, to exactly that frame. -/
theorem decode_single (f : List Nat) (hm : f.length ≤ MTU) :
    get_packets_loop (get_payload_from_packet f) = ([f], []) := by
  have hlt : f.length < 4294967296 := by
    simp only [MTU] at hm
    omega
  have hpay : get_payload_from_packet f = beBytes4 f.length ++ f := by
    unfold get_payload_from_packet
    rw [pack_htonl]
  have hlen : (beBytes4 f.length ++ f).length = f.length + 4 := by
    simp only [beBytes4, List.length_append, List.length_cons, List.length_nil]
    omega
  have htake : (beBytes4 f.length ++ f).take LENGTH = beBytes4 f.length := rfl
  have hdrop : (beBytes4 f.length ++ f).drop LENGTH = f := rfl
  unfold get_packets_loop
  rw [hpay, hlen]
  show get_packets_iter (f.length + 3 + 1) (beBytes4 f.length ++ f) = ([f], [])
  rw [get_packets_iter_succ]
  rw [htake, hdrop, reported_size_beBytes4 f.length hlt, hlen]
  rw [if_neg (by simp only [LENGTH]; omega)]
  rw [if_neg hm.not_lt]
  rw [if_neg (by omega)]
  rw [List.take_length, List.drop_length, get_packets_iter_nil]

/-- Reading a big-endian u32 field back yields the packed value. -/
theorem beValue4_packBE4 (n : Nat) (h : n < 4294967296) :
    beValue4 (PCAP.packBE4 n) = n := by
  simp only [PCAP.packBE4, beValue4]
  omega

/-- Forwarding any number of capture records preserves the queue heads: a
queue whose first element is the PCAP global header keeps it first. -/
theorem forward_all_head (pkts : List (Nat × Nat × List Nat)) :
    ∀ qs : List (List (List Nat)),
      (∀ q ∈ qs, q.head? = some PCAP.HEADER) →
      ∀ q ∈ forward_all qs pkts, q.head? = some PCAP.HEADER := by
  induction pkts with
  | nil => intro qs h q hq; exact h q hq
  | cons p ps ih =>
    intro qs h q hq
    refine ih (forward_packet qs p.1 p.2.1 p.2.2) ?_ q hq
    intro q' hq'
    obtain ⟨q0, hq0, rfl⟩ := List.mem_map.mp hq'
    have h0 := h q0 hq0
    rw [List.head?_append]
    simp [h0]

theorem filterMap_skip_empty :
    ∀ fs : List (List Nat),
      fs.filterMap (fun p => if p.isEmpty then none else some p)
        = fs.filter (fun q => !q.isEmpty) := by
  intro fs
  induction fs with
  | nil => rfl
  | cons a l ih =>
    rw [List.filterMap_cons, List.filter_cons]
    by_cases h : a = []
    · subst h
      simpa using ih
    · have hne : a.isEmpty = false := by simp [List.isEmpty_iff, h]
      simpa [hne] using ih

/-! ### Claim theorems -/

/-- C5: `get_payload_from_packet b` is the 4-byte big-endian encoding of
`len(b)` followed by the bytes of `b`, and its length is `len(b) + 4`
(for lengths representable in the u32 prefix). -/
theorem payload_encoding_spec (b : List Nat) (h : b.length < 4294967296) :
    get_payload_from_packet b = beBytes4 b.length ++ b ∧
      (get_payload_from_packet b).length = b.length + 4 := by
  refine ⟨?_, ?_⟩
  · unfold get_payload_from_packet
    rw [pack_htonl]
  · simp only [get_payload_from_packet, packNativeU32, List.length_append,
      List.length_cons, List.length_nil]
    omega

/-- Witness for C5 at the 3-byte frame `aa bb cc`. -/
theorem payload_encoding_spec_witness :
    ([170, 187, 204] : List Nat).length < 4294967296 ∧
      (get_payload_from_packet [170, 187, 204] =
          beBytes4 ([170, 187, 204] : List Nat).length ++ [170, 187, 204] ∧
        (get_payload_from_packet [170, 187, 204]).length =
          ([170, 187, 204] : List Nat).length + 4) :=
  ⟨by decide, payload_encoding_spec [170, 187, 204] (by decide)⟩

/-- C6: `PCAP.HEADER` is exactly the fixed 24-byte libpcap global header:
magic `0xA1B2C3D4`, version 2.4, GMT offset 0, timestamp accuracy 0,
snapshot length 65535, link type 1, all in network byte order. -/
theorem pcap_header_bytes :
    PCAP.HEADER = [0xa1, 0xb2, 0xc3, 0xd4, 0x00, 0x02, 0x00, 0x04,
        0x00, 0x00, 0x00, 0x00, 0x00, 0x00, 0x00, 0x00,
        0x00, 0x00, 0xff, 0xff, 0x00, 0x00, 0x00, 0x01] ∧
      PCAP.HEADER.length = 24 := by
  constructor <;> rfl

/-- C9: the empty frame round-trips through the codec: decoding its 4-byte
encoding (a zero length prefix) on an empty buffer yields exactly one packet,
the empty byte string, and an empty final buffer. -/
theorem empty_frame_roundtrip :
    get_packets_from_tcp_data [] (get_payload_from_packet []) = ([[]], []) ∧
      (get_packets_from_tcp_data [] (get_payload_from_packet [])).1.length = 1 := by
  constructor <;> decide

/-- C1 (code bug): chunking-invariance fails.  The single frame `[65]`
encodes to `00 00 00 01 41`; chopping this valid stream into the chunks
`[00]` and `[00 00 01 41]` and feeding them to one `TCPBuffer` yields no
packet at all: the first call drains the lone buffered byte off the deque
before `popleft` raises `IndexError`, so the byte is lost and the stream is
permanently desynchronized. -/
theorem chunked_stream_header_split_drops_frame :
    get_payload_from_packet [65] = [0, 0, 0, 1, 65] ∧
      [0] ++ [0, 0, 1, 65] = get_payload_from_packet [65] ∧
      feed_chunks [[0], [0, 0, 1, 65]] = ([], [0, 0, 1, 65]) := by
  refine ⟨by decide, by decide, by decide⟩

/-- C4 (code bug): a partial header is not preserved.  The frame `aa bb`
encodes to `00 00 | 00 02 aa bb`; a call fed the first two bytes returns with
an **empty** buffer (the two bytes are destroyed by the draining generator),
and the follow-up call misparses `00 02 aa bb` as an oversized prefix and
clears again, so the frame is never produced — whereas a call whose buffer
still held the two bytes would decode it (last conjunct). -/
theorem partial_header_bytes_destroyed :
    get_payload_from_packet [170, 187] = [0, 0] ++ [0, 2, 170, 187] ∧
      get_packets_from_tcp_data [] [0, 0] = ([], []) ∧
      get_packets_from_tcp_data [] [0, 2, 170, 187] = ([], []) ∧
      get_packets_from_tcp_data [0, 0] [0, 2, 170, 187] = ([[170, 187]], []) := by
  refine ⟨by decide, by decide, by decide, by decide⟩

/-- C3 counterexample: a call that decodes an oversized length prefix does
not necessarily return zero frames.  With buffered data
`00 00 00 01 41 | 00 06 00` the oversized prefix (`00 00 06 00` = 1536 >
1518) is reached after the frame `[65]` has already been extracted, and the
call returns that frame. -/
theorem oversized_call_returns_prior_frames :
    oversized_hit ([] ++ [0, 0, 0, 1, 65, 0, 0, 6, 0]) = true ∧
      get_packets_from_tcp_data [] [0, 0, 0, 1, 65, 0, 0, 6, 0] = ([[65]], []) ∧
      (get_packets_from_tcp_data [] [0, 0, 0, 1, 65, 0, 0, 6, 0]).1 ≠ [] := by
  refine ⟨by decide, by decide, by decide⟩

/-- C3 (amended): a call during which a length prefix decodes to a value
above `MTU` leaves the internal buffer empty; when the oversized prefix is at
the head of the buffered bytes the call returns zero frames (frames completed
earlier in the same call are still returned); and a subsequent call given one
complete well-formed encoded frame of length at most `MTU` returns exactly
that frame. -/
theorem oversized_clears_and_resync (state data buf f : List Nat) :
    (oversized_hit (state ++ data) = true →
      (get_packets_from_tcp_data state data).2 = []) ∧
    (LENGTH ≤ buf.length → MTU < reported_size (buf.take LENGTH) →
      get_packets_loop buf = ([], [])) ∧
    (f.length ≤ MTU →
      get_packets_from_tcp_data [] (get_payload_from_packet f) = ([f], [])) := by
  refine ⟨?_, ?_, ?_⟩
  · intro h
    exact oversized_clears_aux (state ++ data).length (state ++ data) le_rfl h
  · intro hge hs
    cases buf with
    | nil => simp [LENGTH] at hge
    | cons a l =>
      show get_packets_iter (l.length + 1) (a :: l) = ([], [])
      rw [get_packets_iter_succ]
      rw [if_neg (not_lt.mpr hge), if_pos hs]
  · intro hf
    show get_packets_loop ([] ++ get_payload_from_packet f) = ([f], [])
    rw [List.nil_append]
    exact decode_single f hf

/-- Witness for C3 (amended): the oversized stream `00 00 06 00 01 02`
(claimed length 1536 > 1518) is fully discarded, and the frame `[65]`
decodes cleanly afterwards. -/
theorem oversized_clears_and_resync_witness :
    (get_packets_from_tcp_data [] [0, 0, 6, 0, 1, 2]).2 = [] ∧
      get_packets_loop [0, 0, 6, 0, 1, 2] = ([], []) ∧
      get_packets_from_tcp_data [] (get_payload_from_packet [65]) = ([[65]], []) :=
  ⟨(oversized_clears_and_resync [] [0, 0, 6, 0, 1, 2] [0, 0, 6, 0, 1, 2] [65]).1
      (by decide),
    (oversized_clears_and_resync [] [0, 0, 6, 0, 1, 2] [0, 0, 6, 0, 1, 2] [65]).2.1
      (by decide) (by decide),
    (oversized_clears_and_resync [] [0, 0, 6, 0, 1, 2] [0, 0, 6, 0, 1, 2] [65]).2.2
      (by decide)⟩

/-- C2: after `Bridge.connect`'s wiring loop over `n` endpoints, endpoint
`y`'s `send_queues` contains exactly the receive queues of every other
endpoint (`x ∈` iff `x < n ∧ x ≠ y`), never its own, and has exactly `n - 1`
entries: full-mesh flood with no self-delivery. -/
theorem bridge_wiring_full_mesh (n x y : Nat) (hy : y < n) :
    (x ∈ wire_send_queues n y ↔ x < n ∧ x ≠ y) ∧
      y ∉ wire_send_queues n y ∧
      (wire_send_queues n y).length = n - 1 := by
  rw [wire_char n y hy]
  refine ⟨?_, ?_, ?_⟩
  · simp [List.mem_filter, List.mem_range]
  · simp [List.mem_filter]
  · exact range_filter_bne_length y n hy

/-- Witness for C2 on a three-endpoint bridge: endpoint 1's send-queue list
holds queues 0 and 2 and not its own. -/
theorem bridge_wiring_full_mesh_witness :
    (1 : Nat) < 3 ∧
      ((0 ∈ wire_send_queues 3 1 ↔ 0 < 3 ∧ 0 ≠ 1) ∧
        1 ∉ wire_send_queues 3 1 ∧
        (wire_send_queues 3 1).length = 3 - 1) :=
  ⟨by decide, bridge_wiring_full_mesh 3 0 1 (by decide)⟩

/-- C7: `PCAP.get_pcap_from_packet` is a 16-byte record header followed by
the frame bytes verbatim; its four u32 network-byte-order fields are the
capture seconds, the microseconds remainder, and twice the frame length
(captured length = original length, no truncation). -/
theorem pcap_record_fields (s u : Nat) (b : List Nat) (hs : s < 4294967296)
    (hu : u < 4294967296) (hb : b.length < 4294967296) :
    (PCAP.get_pcap_from_packet s u b).length = 16 + b.length ∧
      (PCAP.get_pcap_from_packet s u b).drop 16 = b ∧
      beValue4 ((PCAP.get_pcap_from_packet s u b).take 4) = s ∧
      beValue4 (((PCAP.get_pcap_from_packet s u b).drop 4).take 4) = u ∧
      beValue4 (((PCAP.get_pcap_from_packet s u b).drop 8).take 4) = b.length ∧
      beValue4 (((PCAP.get_pcap_from_packet s u b).drop 12).take 4) = b.length := by
  refine ⟨?_, rfl, ?_, ?_, ?_, ?_⟩
  · simp only [PCAP.get_pcap_from_packet, PCAP.packBE4, List.length_append,
      List.length_cons, List.length_nil]
  · exact beValue4_packBE4 s hs
  · exact beValue4_packBE4 u hu
  · exact beValue4_packBE4 b.length hb
  · exact beValue4_packBE4 b.length hb

/-- Witness for C7 at timestamp (1 s, 2 µs) and the 1-byte frame `[9]`. -/
theorem pcap_record_fields_witness :
    (1 : Nat) < 4294967296 ∧ (2 : Nat) < 4294967296 ∧
      ([9] : List Nat).length < 4294967296 ∧
      ((PCAP.get_pcap_from_packet 1 2 [9]).length = 16 + ([9] : List Nat).length ∧
        (PCAP.get_pcap_from_packet 1 2 [9]).drop 16 = [9] ∧
        beValue4 ((PCAP.get_pcap_from_packet 1 2 [9]).take 4) = 1 ∧
        beValue4 (((PCAP.get_pcap_from_packet 1 2 [9]).drop 4).take 4) = 2 ∧
        beValue4 (((PCAP.get_pcap_from_packet 1 2 [9]).drop 8).take 4) =
          ([9] : List Nat).length ∧
        beValue4 (((PCAP.get_pcap_from_packet 1 2 [9]).drop 12).take 4) =
          ([9] : List Nat).length) :=
  ⟨by decide, by decide, by decide,
    pcap_record_fields 1 2 [9] (by decide) (by decide) (by decide)⟩

/-- C8: the sniffer admits at most one capture session (`start_session` on a
non-empty `capture_queues` rejects and changes nothing); an accepted session's
queue starts with `PCAP.HEADER` and keeps it first under any number of
forwarded records; and ending a session removes its queue from
`capture_queues`. -/
theorem sniffer_session_invariants (qs : List (List (List Nat)))
    (q0 : List (List Nat)) (rest : List (List (List Nat)))
    (pkts : List (Nat × Nat × List Nat)) (q r : List (List Nat)) :
    start_session (q0 :: rest) = (false, q0 :: rest) ∧
      ((start_session []).1 = true ∧
        (q ∈ forward_all (start_session []).2 pkts →
          q.head? = some PCAP.HEADER)) ∧
      (r ∈ qs → (end_session qs r).length = qs.length - 1) ∧
      (end_session qs r).count r = qs.count r - 1 := by
  refine ⟨?_, ⟨rfl, ?_⟩, ?_, ?_⟩
  · simp [start_session, MAX_CAPTURE_CONNECTIONS]
  · intro hq
    refine forward_all_head pkts (start_session []).2 ?_ q hq
    intro q' hq'
    have : q' = [PCAP.HEADER] := by
      simpa [start_session, MAX_CAPTURE_CONNECTIONS] using hq'
    simp [this]
  · intro hr
    exact List.length_erase_of_mem hr
  · exact List.count_erase_self r qs

/-- Witness for C8: a second client is rejected while one session is active;
after one forwarded record the session queue still starts with the header;
removing the only session empties the queue list. -/
theorem sniffer_session_invariants_witness :
    start_session [[[1]]] = (false, [[[1]]]) ∧
      ((start_session []).1 = true ∧
        ([PCAP.HEADER, PCAP.get_pcap_from_packet 0 0 [9]] : List (List Nat)).head? =
          some PCAP.HEADER) ∧
      (end_session [[PCAP.HEADER]] [PCAP.HEADER]).length =
        ([[PCAP.HEADER]] : List (List (List Nat))).length - 1 ∧
      (end_session [[PCAP.HEADER]] [PCAP.HEADER]).count [PCAP.HEADER] =
        ([[PCAP.HEADER]] : List (List (List Nat))).count [PCAP.HEADER] - 1 :=
  have X := sniffer_session_invariants [[PCAP.HEADER]] [[1]] [] [(0, 0, [9])]
    [PCAP.HEADER, PCAP.get_pcap_from_packet 0 0 [9]] [PCAP.HEADER]
  ⟨X.1, ⟨X.2.1.1, X.2.1.2 (by decide)⟩, X.2.2.1 (by decide), X.2.2.2⟩

/-- C10: the TAP and physical write paths drop a dequeued empty frame
without writing it and keep looping; every non-empty frame is written
unmodified, so the written frames are exactly the non-empty dequeued ones. -/
theorem empty_frame_write_skip (p : List Nat) (fs : List (List Nat)) :
    write_tap_action [] = none ∧ write_physical_action [] = none ∧
      (p ≠ [] → write_tap_action p = some p ∧ write_physical_action p = some p) ∧
      tap_writes fs = fs.filter (fun q => !q.isEmpty) ∧
      physical_writes fs = fs.filter (fun q => !q.isEmpty) := by
  refine ⟨rfl, rfl, ?_, ?_, ?_⟩
  · intro h
    constructor <;>
      simp [write_tap_action, write_physical_action, List.isEmpty_iff, h]
  · exact filterMap_skip_empty fs
  · exact filterMap_skip_empty fs

/-- Witness for C10 with the non-empty frame `[7]` and the dequeued sequence
`[[], [7, 8]]`. -/
theorem empty_frame_write_skip_witness :
    write_tap_action [] = none ∧ write_physical_action [] = none ∧
      (write_tap_action [7] = some [7] ∧ write_physical_action [7] = some [7]) ∧
      tap_writes [[], [7, 8]] = ([[], [7, 8]] : List (List Nat)).filter
        (fun q => !q.isEmpty) ∧
      physical_writes [[], [7, 8]] = ([[], [7, 8]] : List (List Nat)).filter
        (fun q => !q.isEmpty) :=
  have X := empty_frame_write_skip [7] [[], [7, 8]]
  ⟨X.1, X.2.1, X.2.2.1 (by decide), X.2.2.2.1, X.2.2.2.2⟩

end Ndlab
